import Mathlib

/-!
Verification of the per-sample delay engine of the `Myplug` VST plugin
(`src/lib.rs`, `impl Plugin for Myplug`, fn `process`, lines 135-227).

Modelling conventions:

* Audio samples are rationals (`ℚ`).  The claims settled here only involve
  exact sample arithmetic (multiplication by gain `1.0`, addition of `0.0`,
  plain assignment), on which `f32` arithmetic agrees with exact arithmetic.
* The fields `iterdelay`, `iterrepeats`, `prev` are Rust `usize` values;
  they are modelled as `ℕ` with every arithmetic operation reduced modulo
  `2 ^ 64` (release-mode wrapping semantics of `usize`).
* The float chain of lines 147-149,
  `(self.iterrepeats as f32 * self.params.time.smoothed.next() as f32 / 1000.0) as usize`,
  is modelled twice: bit-exactly as IEEE-754 binary32 round-to-nearest-even
  arithmetic (`rescaleF32`, `rescaleCheckF32`), and as the exact-arithmetic
  idealization `iterrepeats * time / 1000` (`rescaleCheck`).  The binary32
  value can deviate from the exact floor by one unit in either direction
  (claim C5 exhibits both directions); the claims proved through
  `rescaleCheck` depend only on concrete rescale instances whose binary32
  value coincides with the exact one, or on bounds that a one-unit deviation
  cannot violate.  The secondary tap index of lines 154-156,
  `(self.iterrepeats as f32 * self.params.delay.smoothed.next() as f32 / 1000.0) as usize`,
  is modelled as `iterrepeats * delay / 1000`; only its membership in
  [0, 399999] is ever used by a claim.
* The integer parameters `delay`, `mode`, `time` use `SmoothingStyle::None`,
  so every poll of `smoothed.next()` within one frame returns the same value;
  a frame is therefore modelled as one parameter snapshot together with the
  list of channel samples of that frame (the body of
  `for channel_samples in buffer.iter_samples()`).  The gain parameter is
  polled once per frame (line 143).
* The buffer `prevsample: Vec<f32>` of length 400000 is modelled as a total
  function `ℕ → ℚ`; all indices the code ever uses are proved to lie in
  `[0, 399999]` (claim C1), so totality adds no behaviour.
-/

namespace VstDelay

/-- The modulus of Rust `usize` arithmetic on a 64-bit target. -/
def USIZE : ℕ := 2 ^ 64

/-- Wrapping `usize` value. -/
def wrap64 (n : ℕ) : ℕ := n % USIZE

/-- Wrapping `usize` addition (release-mode `+=`). -/
def wadd (a b : ℕ) : ℕ := (a + b) % USIZE

/-- Wrapping `usize` subtraction (release-mode `-=`). -/
def wsub (a b : ℕ) : ℕ := (a + (USIZE - b)) % USIZE

/-- Lines 217-222: after each sample a cursor is reset to `0` once it is
`>= 399999`. -/
def wrapIdx (n : ℕ) : ℕ := if 399999 ≤ n then 0 else n

/-- The mutable engine state of `Myplug` (lines 8-14; the `params` handle is
factored out into the per-frame parameter snapshot). -/
structure State where
  prevsample : ℕ → ℚ
  iterdelay : ℕ
  iterrepeats : ℕ
  prev : ℕ

/-- One per-frame snapshot of the four smoothed parameter values
(lines 22-29; `delay`, `mode`, `time` are `IntParam`s with
`SmoothingStyle::None`, `gain` is polled once per frame). -/
structure Params where
  gain : ℚ
  delay : ℕ
  mode : ℤ
  time : ℕ

/-- Lines 165-175, the cursor effect of the `mode == 2` arm, acting on the
already-incremented write cursor `d` (line 159) and the already-incremented
read cursor `r` (line 160). -/
def mode2adjust (d r : ℕ) : ℕ :=
  if 199999 < d then
    if d % 5 = 0 then wsub r 1
    else if d % 7 = 0 then wadd r 2
    else r
  else wadd r 1

/-- Lines 186-194 (and 198-204), the `% 3` cursor rule of modes 6 and 7,
acting on the already-incremented cursors. -/
def mode6adjust (d r : ℕ) : ℕ :=
  if d % 3 = 0 then
    if d % 2 = 0 then wsub r 3 else wadd r 3
  else r

/-- The read-cursor effect of the `match` on `mode` (lines 161-216), given the
already-incremented write cursor `d` and read cursor `r`.  Mode 7 applies the
`% 3` rule first (lines 198-204) and then the `> 199999` rule (lines 205-213),
exactly as in the source. -/
def cursorAdvance (m : ℤ) (d r : ℕ) : ℕ :=
  if m = 2 then mode2adjust d r
  else if m = 6 then mode6adjust d r
  else if m = 7 then mode2adjust d (mode6adjust d r)
  else r

/-- The output-sample effect of the `match` on `mode` (lines 161-216):
`sample` is the post-gain input, `prevsample` and `prevsample2` the two taps
read at lines 153-156. -/
def modeOut (m : ℤ) (sample prevsample prevsample2 : ℚ) : ℚ :=
  if m = 1 then sample + prevsample
  else if m = 2 then sample + prevsample
  else if m = 3 then prevsample
  else if m = 4 then sample * prevsample
  else if m = 5 then sample + prevsample + prevsample2
  else if m = 6 then sample + prevsample
  else if m = 7 then sample + prevsample + prevsample2
  else sample

/-- One iteration of the inner loop `for sample in channel_samples`
(lines 152-223): read the two taps, apply gain, write the post-gain sample at
the write cursor, increment both cursors, apply the mode arm, wrap both
cursors.  Returns the new state and the output sample. -/
def step (s : State) (p : Params) (x : ℚ) : State × ℚ :=
  let prevsample := s.prevsample s.iterrepeats
  let prevsample2 := s.prevsample (s.iterrepeats * p.delay / 1000)
  let sample := x * p.gain
  let d := wrap64 (s.iterdelay + 1)
  let r := wrap64 (s.iterrepeats + 1)
  (⟨Function.update s.prevsample s.iterdelay sample,
    wrapIdx d,
    wrapIdx (cursorAdvance p.mode d r),
    s.prev⟩,
   modeOut p.mode sample prevsample prevsample2)

/-- Lines 146-151: at the top of each frame, if the polled time value differs
from the last-observed one, rescale the read cursor and record the new time
value. -/
def rescaleCheck (s : State) (time : ℕ) : State :=
  if s.prev ≠ time then
    { s with iterrepeats := s.iterrepeats * time / 1000, prev := time }
  else s

/-- Process the channel samples of one frame in order. -/
def stepList (s : State) (p : Params) : List ℚ → State × List ℚ
  | [] => (s, [])
  | x :: xs =>
    ((stepList (step s p x).1 p xs).1,
     (step s p x).2 :: (stepList (step s p x).1 p xs).2)

/-- One iteration of `for channel_samples in buffer.iter_samples()`
(lines 141-223): the time-rescale check followed by the per-sample steps. -/
def frameStep (s : State) (p : Params) (ins : List ℚ) : State × List ℚ :=
  stepList (rescaleCheck s p.time) p ins

/-- Process a block: a list of frames, each a parameter snapshot plus that
frame's channel samples. -/
def run (s : State) : List (Params × List ℚ) → State
  | [] => s
  | f :: fs => run (frameStep s f.1 f.2).1 fs

/-- `Myplug::default()` (lines 32-42): zero-filled buffer of length 400000,
`iterdelay = 0`, `iterrepeats = 399999`, `prev = 399999`. -/
def initState : State := ⟨fun _ => 0, 0, 399999, 399999⟩

/-- The buffer indices touched by one per-sample step, in source order: the
read at `iterrepeats` (line 153), the read at the derived secondary tap
(lines 154-156), and the write at `iterdelay` (line 158). -/
def stepIndices (s : State) (p : Params) : List ℕ :=
  [s.iterrepeats, s.iterrepeats * p.delay / 1000, s.iterdelay]

/-- The intermediate states after each sample of one frame. -/
def frameStates (s : State) (p : Params) : List ℚ → List State
  | [] => []
  | x :: xs => (step s p x).1 :: frameStates (step s p x).1 p xs

/-- All buffer indices touched during one frame. -/
def frameIndices (s : State) (p : Params) : List ℚ → List ℕ
  | [] => []
  | x :: xs => stepIndices s p ++ frameIndices (step s p x).1 p xs

/-- The buffer indices written during one frame (the value of `iterdelay` at
line 158 of each sample). -/
def frameWrites (s : State) (p : Params) : List ℚ → List ℕ
  | [] => []
  | x :: xs => s.iterdelay :: frameWrites (step s p x).1 p xs

/-- The states after every processed sample of a block. -/
def runStates (s : State) : List (Params × List ℚ) → List State
  | [] => []
  | f :: fs =>
    frameStates (rescaleCheck s f.1.time) f.1 f.2 ++
      runStates (frameStep s f.1 f.2).1 fs

/-- All buffer indices touched during a block. -/
def runIndices (s : State) : List (Params × List ℚ) → List ℕ
  | [] => []
  | f :: fs =>
    frameIndices (rescaleCheck s f.1.time) f.1 f.2 ++
      runIndices (frameStep s f.1 f.2).1 fs

/-- All buffer indices written during a block. -/
def runWrites (s : State) : List (Params × List ℚ) → List ℕ
  | [] => []
  | f :: fs =>
    frameWrites (rescaleCheck s f.1.time) f.1 f.2 ++
      runWrites (frameStep s f.1 f.2).1 fs

/-- The nominal host-side parameter ranges (lines 70-75): `delay ∈ [1,1000]`,
`mode ∈ [1,7]`, `time ∈ [1,1000]`; gain is arbitrary. -/
def paramsInRange (p : Params) : Prop :=
  1 ≤ p.delay ∧ p.delay ≤ 1000 ∧ 1 ≤ p.mode ∧ p.mode ≤ 7 ∧ 1 ≤ p.time ∧ p.time ≤ 1000

/-- `true` exactly when the step from `s` under `p` executes a `-=` on
`iterrepeats` whose subtrahend exceeds the current value, i.e. when the
unsigned subtraction underflows (panics in a debug build, wraps in release).
The three subtraction sites are `iterrepeats -= 1` in mode 2 (line 169) and
mode 7 (line 207), and `iterrepeats -= 3` in modes 6 and 7 (lines 190, 200);
`d` and `r` are the already-incremented cursors as in `cursorAdvance`. -/
def stepUnderflows (s : State) (p : Params) : Bool :=
  if p.mode = 2 then
    decide (199999 < wrap64 (s.iterdelay + 1) ∧ wrap64 (s.iterdelay + 1) % 5 = 0 ∧
      wrap64 (s.iterrepeats + 1) < 1)
  else if p.mode = 6 then
    decide (wrap64 (s.iterdelay + 1) % 3 = 0 ∧ wrap64 (s.iterdelay + 1) % 2 = 0 ∧
      wrap64 (s.iterrepeats + 1) < 3)
  else if p.mode = 7 then
    decide ((wrap64 (s.iterdelay + 1) % 3 = 0 ∧ wrap64 (s.iterdelay + 1) % 2 = 0 ∧
        wrap64 (s.iterrepeats + 1) < 3) ∨
      (199999 < wrap64 (s.iterdelay + 1) ∧ wrap64 (s.iterdelay + 1) % 5 = 0 ∧
        mode6adjust (wrap64 (s.iterdelay + 1)) (wrap64 (s.iterrepeats + 1)) < 1))
  else false

/-- Parameter snapshot: gain 1, delay 1, mode 1, time 1. -/
def pMode1 : Params := ⟨1, 1, 1, 1⟩

/-- Parameter snapshot: gain 1, delay 1, mode 2, time 1. -/
def pMode2 : Params := ⟨1, 1, 2, 1⟩

/-- Parameter snapshot: gain 1, delay 1, mode 3, time 1. -/
def pMode3 : Params := ⟨1, 1, 3, 1⟩

/-- A state with small cursors; used to exercise the mode-2 arm below the
`> 199999` threshold. -/
def sC3 : State := ⟨fun _ => 0, 0, 10, 1⟩

/-- A state whose next step tests the mode-2 thresholds at write-cursor value
`200007`. -/
def sC4 : State := ⟨fun _ => 0, 200006, 10, 1⟩

/-- A state whose next step tests the mode-2 thresholds at write-cursor value
`200008` (the reading where the stored cursor itself is set to `200007`). -/
def sC4b : State := ⟨fun _ => 0, 200007, 10, 1⟩

/-- A state whose next step tests the mode-2 thresholds at write-cursor value
`200005`. -/
def sC4c : State := ⟨fun _ => 0, 200004, 10, 1⟩

/-- Floor of the base-2 logarithm, by fuel recursion (the fuel bounds the bit
length; 200 covers every value arising here). -/
def log2floor : ℕ → ℕ → ℕ
  | 0, _ => 0
  | fuel + 1, n => if 2 ≤ n then log2floor fuel (n / 2) + 1 else 0

/-- Round to nearest, ties to even: `m0` is the truncated significand, `rem`
the remainder below it and `unit` the spacing between representable values. -/
def rne (m0 rem unit : ℕ) : ℕ :=
  if unit < 2 * rem then m0 + 1
  else if 2 * rem < unit then m0
  else if m0 % 2 = 0 then m0 else m0 + 1

/-- The nonnegative integer rounded to the nearest IEEE-754 binary32 value
(24-bit significand, ties to even); exact below `2 ^ 24`.  Models Rust
`as f32` on an integer and binary32 multiplication of two exact operands. -/
def fl32int (P : ℕ) : ℕ :=
  if P < 2 ^ 24 then P
  else
    let e := log2floor 200 P - 23
    let unit := 2 ^ e
    rne (P / unit) (P % unit) unit * unit

/-- Divide the integer-valued binary32 number `Q` by `1000.0` in binary32
round-to-nearest-even and truncate toward zero, computed in scaled integer
arithmetic (scale `2 ^ 40`). -/
def fl32div1000floor (Q : ℕ) : ℕ :=
  let N := Q * 2 ^ 40
  let f := log2floor 200 (N / (1000 * 2 ^ 23))
  let unit := 1000 * 2 ^ f
  rne (N / unit) (N % unit) unit * 2 ^ f / 2 ^ 40

/-- Bit-exact model of the float chain of lines 147-149:
`(iterrepeats as f32 * time as f32 / 1000.0) as usize` — convert both
operands to binary32, multiply in binary32, divide by `1000.0` in binary32,
truncate toward zero. -/
def rescaleF32 (r t : ℕ) : ℕ := fl32div1000floor (fl32int (fl32int r * fl32int t))

/-- Lines 146-151 with the float chain modelled bit-exactly (binary32
round-to-nearest-even, `rescaleF32`) instead of the exact-arithmetic
idealization used by `rescaleCheck`. -/
def rescaleCheckF32 (s : State) (time : ℕ) : State :=
  if s.prev ≠ time then
    { s with iterrepeats := rescaleF32 s.iterrepeats time, prev := time }
  else s

/-- A state about to see the time parameter change from 1000 to 500 with the
read cursor at 268442. -/
def sC5 : State := ⟨fun _ => 0, 0, 268442, 1000⟩

/-- A two-frame stereo block that drives the read cursor down to `1` with the
write cursor at `4`: frame 1 is mode 1 at time 2, frame 2 is mode 6 at
time 1 (whose rescale truncates the read cursor to 0). -/
def trace6 : List (Params × List ℚ) := [(⟨1, 1, 1, 2⟩, [0, 0]), (⟨1, 1, 6, 1⟩, [0, 0])]

/-- Parameter snapshot: gain 1, delay 1, mode 6, time 3. -/
def p6 : Params := ⟨1, 1, 6, 3⟩

/-- The reachable state obtained by processing `trace6` from the initial state
and then the first sample of a mode-6 frame at time 3: its cursors are
`iterdelay = 5`, `iterrepeats = 1`. -/
def s6 : State := (step (rescaleCheck (run initState trace6) p6.time) p6 0).1

/-- Parameter snapshot: gain 1, delay 1, mode 1, time 2. -/
def pB2 : Params := ⟨1, 1, 1, 2⟩

/-- 100003 stereo frames of mode 1 at time 1 followed by one stereo frame of
mode 1 at time 2: drives the write cursor to `200008` and, via the two time
rescales, the read cursor to `402`. -/
def trace7 : List (Params × List ℚ) :=
  List.replicate 100003 (pMode1, ([0, 0] : List ℚ)) ++ [(pB2, [0, 0])]

/-- Parameter snapshot: gain 1, delay 1, mode 7, time 3. -/
def p7 : Params := ⟨1, 1, 7, 3⟩

/-- The reachable state obtained by processing `trace7` from the initial
state and then the first sample of a mode-7 frame at time 3 (whose rescale
truncates the read cursor to 1): its cursors are `iterdelay = 200009`,
`iterrepeats = 2`. -/
def s7 : State := (step (rescaleCheck (run initState trace7) p7.time) p7 0).1

/-- A unit impulse at sample 0 followed by silence. -/
def impulse (n : ℕ) : ℚ := if n = 0 then 1 else 0

/-- The engine state before mono frame `n` of the impulse-response experiment:
mode 1, gain 1, time 1 (the parameter defaults relevant to claim C6), feeding
`impulse`. -/
def c6run : ℕ → State
  | 0 => initState
  | k + 1 => (frameStep (c6run k) pMode1 [impulse k]).1

/-- The output sample of mono frame `n` of the impulse-response experiment. -/
def c6out (n : ℕ) : ℚ := ((frameStep (c6run n) pMode1 [impulse n]).2).headI

/-! ### Basic arithmetic lemmas about the wrapping helpers -/

theorem usize_eq : USIZE = 18446744073709551616 := by norm_num [USIZE]

theorem wrap64_small {n : ℕ} (h : n ≤ 400004) : wrap64 n = n := by
  have hlt : n < USIZE := by rw [usize_eq]; omega
  exact Nat.mod_eq_of_lt hlt

theorem wadd_small {a b : ℕ} (h : a + b ≤ 400004) : wadd a b = a + b := by
  have hlt : a + b < USIZE := by rw [usize_eq]; omega
  exact Nat.mod_eq_of_lt hlt

theorem wsub_small {a b : ℕ} (hb : b ≤ a) (h : a ≤ 400004) : wsub a b = a - b := by
  unfold wsub
  have hU : USIZE = 18446744073709551616 := usize_eq
  have h1 : a + (USIZE - b) = USIZE + (a - b) := by omega
  rw [h1, Nat.add_mod_left]
  exact Nat.mod_eq_of_lt (by omega)

theorem wrapIdx_le (n : ℕ) : wrapIdx n ≤ 399998 := by
  unfold wrapIdx; split <;> omega

theorem wrapIdx_of_lt {n : ℕ} (h : n < 399999) : wrapIdx n = n := by
  unfold wrapIdx; split <;> omega

theorem wrapIdx_of_ge {n : ℕ} (h : 399999 ≤ n) : wrapIdx n = 0 := by
  unfold wrapIdx; split <;> omega

/-! ### Projection lemmas for `step`, `rescaleCheck`, `stepList`, `run` -/

theorem step_fst_iterdelay (s : State) (p : Params) (x : ℚ) :
    (step s p x).1.iterdelay = wrapIdx (wrap64 (s.iterdelay + 1)) := rfl

theorem step_fst_iterrepeats (s : State) (p : Params) (x : ℚ) :
    (step s p x).1.iterrepeats =
      wrapIdx (cursorAdvance p.mode (wrap64 (s.iterdelay + 1)) (wrap64 (s.iterrepeats + 1))) := rfl

theorem step_fst_prev (s : State) (p : Params) (x : ℚ) :
    (step s p x).1.prev = s.prev := rfl

theorem step_fst_prevsample (s : State) (p : Params) (x : ℚ) :
    (step s p x).1.prevsample = Function.update s.prevsample s.iterdelay (x * p.gain) := rfl

theorem step_snd (s : State) (p : Params) (x : ℚ) :
    (step s p x).2 =
      modeOut p.mode (x * p.gain) (s.prevsample s.iterrepeats)
        (s.prevsample (s.iterrepeats * p.delay / 1000)) := rfl

theorem rescaleCheck_of_ne {s : State} {t : ℕ} (h : s.prev ≠ t) :
    rescaleCheck s t =
      { s with iterrepeats := s.iterrepeats * t / 1000, prev := t } := by
  unfold rescaleCheck; rw [if_pos h]

theorem rescaleCheck_of_eq {s : State} {t : ℕ} (h : s.prev = t) :
    rescaleCheck s t = s := by
  unfold rescaleCheck; rw [if_neg (by simp [h])]

theorem rescaleCheck_iterdelay (s : State) (t : ℕ) :
    (rescaleCheck s t).iterdelay = s.iterdelay := by
  unfold rescaleCheck; split <;> rfl

theorem rescaleCheck_prevsample (s : State) (t : ℕ) :
    (rescaleCheck s t).prevsample = s.prevsample := by
  unfold rescaleCheck; split <;> rfl

theorem rescaleCheck_iterrepeats_of_ne (s : State) (t : ℕ) (h : s.prev ≠ t) :
    (rescaleCheck s t).iterrepeats = s.iterrepeats * t / 1000 := by
  unfold rescaleCheck; rw [if_pos h]

theorem rescaleCheck_prev_of_ne (s : State) (t : ℕ) (h : s.prev ≠ t) :
    (rescaleCheck s t).prev = t := by
  unfold rescaleCheck; rw [if_pos h]

theorem rescaleCheckF32_iterrepeats_of_ne (s : State) (t : ℕ) (h : s.prev ≠ t) :
    (rescaleCheckF32 s t).iterrepeats = rescaleF32 s.iterrepeats t := by
  unfold rescaleCheckF32; rw [if_pos h]

theorem rescaleCheckF32_prev_of_ne (s : State) (t : ℕ) (h : s.prev ≠ t) :
    (rescaleCheckF32 s t).prev = t := by
  unfold rescaleCheckF32; rw [if_pos h]

theorem rescaleCheckF32_of_eq (s : State) (t : ℕ) (h : s.prev = t) :
    rescaleCheckF32 s t = s := by
  unfold rescaleCheckF32; rw [if_neg (by simp [h])]

theorem stepList_nil (s : State) (p : Params) : stepList s p [] = (s, []) := rfl

theorem stepList_cons (s : State) (p : Params) (x : ℚ) (xs : List ℚ) :
    stepList s p (x :: xs) =
      ((stepList (step s p x).1 p xs).1,
       (step s p x).2 :: (stepList (step s p x).1 p xs).2) := rfl

theorem frameStep_fst (s : State) (p : Params) (ins : List ℚ) :
    (frameStep s p ins).1 = (stepList (rescaleCheck s p.time) p ins).1 := rfl

theorem frameStep_two_fst (s : State) (p : Params) (x1 x2 : ℚ) :
    (frameStep s p [x1, x2]).1 = (step (step (rescaleCheck s p.time) p x1).1 p x2).1 := rfl

theorem run_nil (s : State) : run s [] = s := rfl

theorem run_cons (s : State) (f : Params × List ℚ) (fs : List (Params × List ℚ)) :
    run s (f :: fs) = run (frameStep s f.1 f.2).1 fs := rfl

theorem run_append (s : State) (fs1 fs2 : List (Params × List ℚ)) :
    run s (fs1 ++ fs2) = run (run s fs1) fs2 := by
  induction fs1 generalizing s with
  | nil => rfl
  | cons f fs ih => rw [List.cons_append, run_cons, run_cons, ih]

theorem stepList_cons_fst (s : State) (p : Params) (x : ℚ) (xs : List ℚ) :
    (stepList s p (x :: xs)).1 = (stepList (step s p x).1 p xs).1 := rfl

theorem frameStates_cons (s : State) (p : Params) (x : ℚ) (xs : List ℚ) :
    frameStates s p (x :: xs) = (step s p x).1 :: frameStates (step s p x).1 p xs := rfl

theorem frameIndices_cons (s : State) (p : Params) (x : ℚ) (xs : List ℚ) :
    frameIndices s p (x :: xs) = stepIndices s p ++ frameIndices (step s p x).1 p xs := rfl

theorem frameWrites_cons (s : State) (p : Params) (x : ℚ) (xs : List ℚ) :
    frameWrites s p (x :: xs) = s.iterdelay :: frameWrites (step s p x).1 p xs := rfl

theorem runStates_cons (s : State) (f : Params × List ℚ) (fs : List (Params × List ℚ)) :
    runStates s (f :: fs) =
      frameStates (rescaleCheck s f.1.time) f.1 f.2 ++ runStates (frameStep s f.1 f.2).1 fs := rfl

theorem runIndices_cons (s : State) (f : Params × List ℚ) (fs : List (Params × List ℚ)) :
    runIndices s (f :: fs) =
      frameIndices (rescaleCheck s f.1.time) f.1 f.2 ++ runIndices (frameStep s f.1 f.2).1 fs := rfl

theorem runWrites_cons (s : State) (f : Params × List ℚ) (fs : List (Params × List ℚ)) :
    runWrites s (f :: fs) =
      frameWrites (rescaleCheck s f.1.time) f.1 f.2 ++ runWrites (frameStep s f.1 f.2).1 fs := rfl

theorem cursorAdvance_one (d r : ℕ) : cursorAdvance 1 d r = r := by
  norm_num [cursorAdvance]

theorem cursorAdvance_two (d r : ℕ) : cursorAdvance 2 d r = mode2adjust d r := by
  norm_num [cursorAdvance]

theorem modeOut_one (a b c : ℚ) : modeOut 1 a b c = a + b := by
  norm_num [modeOut]

theorem modeOut_three (a b c : ℚ) : modeOut 3 a b c = b := by
  norm_num [modeOut]

/-! ### Per-step bounds -/

theorem step_post_iterdelay_le (s : State) (p : Params) (x : ℚ) :
    (step s p x).1.iterdelay ≤ 399998 := by
  rw [step_fst_iterdelay]; exact wrapIdx_le _

theorem step_post_iterrepeats_le (s : State) (p : Params) (x : ℚ) :
    (step s p x).1.iterrepeats ≤ 399998 := by
  rw [step_fst_iterrepeats]; exact wrapIdx_le _

theorem rescaleCheck_iterrepeats_le {s : State} {t : ℕ}
    (hr : s.iterrepeats ≤ 399999) (ht : t ≤ 1000) :
    (rescaleCheck s t).iterrepeats ≤ 399999 := by
  unfold rescaleCheck; split
  · show s.iterrepeats * t / 1000 ≤ 399999
    calc s.iterrepeats * t / 1000 ≤ 399999 * 1000 / 1000 :=
          Nat.div_le_div_right (Nat.mul_le_mul hr ht)
      _ = 399999 := by norm_num
  · exact hr

theorem tap_index_le {r d : ℕ} (hr : r ≤ 399999) (hd : d ≤ 1000) :
    r * d / 1000 ≤ 399999 := by
  calc r * d / 1000 ≤ 399999 * 1000 / 1000 := Nat.div_le_div_right (Nat.mul_le_mul hr hd)
    _ = 399999 := by norm_num

/-! ### Block-level bounds invariant (claim C1) -/

theorem frame_bounds : ∀ (ins : List ℚ) (s : State) (p : Params),
    s.iterdelay ≤ 399998 → s.iterrepeats ≤ 399999 → p.delay ≤ 1000 →
    (∀ s2 ∈ frameStates s p ins, s2.iterdelay ≤ 399999 ∧ s2.iterrepeats ≤ 399999) ∧
    (∀ i ∈ frameIndices s p ins, i ≤ 399999) ∧
    (stepList s p ins).1.iterdelay ≤ 399998 ∧ (stepList s p ins).1.iterrepeats ≤ 399999 := by
  intro ins
  induction ins with
  | nil =>
    intro s p hd hr hdel
    refine ⟨by intro s2 hs2; simp [frameStates] at hs2,
            by intro i hi; simp [frameIndices] at hi, hd, hr⟩
  | cons x xs ih =>
    intro s p hd hr hdel
    have h1 := step_post_iterdelay_le s p x
    have h2 := step_post_iterrepeats_le s p x
    obtain ⟨ihS, ihI, ihD, ihR⟩ := ih (step s p x).1 p h1 (le_trans h2 (by norm_num)) hdel
    refine ⟨?_, ?_, ?_, ?_⟩
    · intro s2 hs2
      rw [frameStates_cons] at hs2
      rcases List.mem_cons.mp hs2 with h | h
      · subst h; exact ⟨le_trans h1 (by norm_num), le_trans h2 (by norm_num)⟩
      · exact ihS s2 h
    · intro i hi
      rw [frameIndices_cons] at hi
      rcases List.mem_append.mp hi with h | h
      · unfold stepIndices at h
        simp only [List.mem_cons, List.mem_singleton, List.not_mem_nil, or_false] at h
        rcases h with h | h | h
        · subst h; exact hr
        · subst h; exact tap_index_le hr hdel
        · subst h; omega
      · exact ihI i h
    · rw [stepList_cons_fst]; exact ihD
    · rw [stepList_cons_fst]; exact ihR

theorem run_bounds : ∀ (fs : List (Params × List ℚ)) (s : State),
    s.iterdelay ≤ 399998 → s.iterrepeats ≤ 399999 →
    (∀ f ∈ fs, f.1.delay ≤ 1000 ∧ f.1.time ≤ 1000) →
    (∀ s2 ∈ runStates s fs, s2.iterdelay ≤ 399999 ∧ s2.iterrepeats ≤ 399999) ∧
    (∀ i ∈ runIndices s fs, i ≤ 399999) := by
  intro fs
  induction fs with
  | nil =>
    intro s hd hr hfs
    exact ⟨by intro s2 hs2; simp [runStates] at hs2, by intro i hi; simp [runIndices] at hi⟩
  | cons f fs ih =>
    intro s hd hr hfs
    have hf := hfs f (List.mem_cons_self f fs)
    have hd0 : (rescaleCheck s f.1.time).iterdelay ≤ 399998 := by
      rw [rescaleCheck_iterdelay]; exact hd
    have hr0 : (rescaleCheck s f.1.time).iterrepeats ≤ 399999 :=
      rescaleCheck_iterrepeats_le hr hf.2
    obtain ⟨hS, hI, hD, hR⟩ := frame_bounds f.2 (rescaleCheck s f.1.time) f.1 hd0 hr0 hf.1
    have hD1 : (frameStep s f.1 f.2).1.iterdelay ≤ 399998 := by rw [frameStep_fst]; exact hD
    have hR1 : (frameStep s f.1 f.2).1.iterrepeats ≤ 399999 := by rw [frameStep_fst]; exact hR
    obtain ⟨ihS, ihI⟩ :=
      ih (frameStep s f.1 f.2).1 hD1 hR1 (fun g hg => hfs g (List.mem_cons_of_mem f hg))
    constructor
    · intro s2 hs2
      rw [runStates_cons] at hs2
      rcases List.mem_append.mp hs2 with h | h
      · exact hS s2 h
      · exact ihS s2 h
    · intro i hi
      rw [runIndices_cons] at hi
      rcases List.mem_append.mp hi with h | h
      · exact hI i h
      · exact ihI i h

/-! ### All-zero idempotence (claim C8) -/

theorem frame_zero_buf : ∀ (ins : List ℚ) (s : State) (p : Params),
    (∀ i, s.prevsample i = 0) → p.gain = 1 → (∀ x ∈ ins, x = 0) →
    (∀ s2 ∈ frameStates s p ins, ∀ i, s2.prevsample i = 0) ∧
    (∀ i, (stepList s p ins).1.prevsample i = 0) := by
  intro ins
  induction ins with
  | nil =>
    intro s p hbuf hg hx
    exact ⟨by intro s2 hs2; simp [frameStates] at hs2, hbuf⟩
  | cons x xs ih =>
    intro s p hbuf hg hx
    have hx0 : x = 0 := hx x (List.mem_cons_self x xs)
    have hbuf1 : ∀ i, (step s p x).1.prevsample i = 0 := by
      intro i
      rw [step_fst_prevsample, Function.update_apply]
      split
      · rw [hx0, hg]; norm_num
      · exact hbuf i
    obtain ⟨ihS, ihF⟩ := ih (step s p x).1 p hbuf1 hg
      (fun y hy => hx y (List.mem_cons_of_mem x hy))
    refine ⟨?_, ihF⟩
    intro s2 hs2
    rw [frameStates_cons] at hs2
    rcases List.mem_cons.mp hs2 with h | h
    · subst h; exact hbuf1
    · exact ihS s2 h

theorem run_zero_buf : ∀ (fs : List (Params × List ℚ)) (s : State),
    (∀ i, s.prevsample i = 0) →
    (∀ f ∈ fs, f.1.gain = 1 ∧ ∀ x ∈ f.2, x = 0) →
    (∀ s2 ∈ runStates s fs, ∀ i, s2.prevsample i = 0) ∧
    (∀ i, (run s fs).prevsample i = 0) := by
  intro fs
  induction fs with
  | nil =>
    intro s hbuf hfs
    exact ⟨by intro s2 hs2; simp [runStates] at hs2, hbuf⟩
  | cons f fs ih =>
    intro s hbuf hfs
    have hf := hfs f (List.mem_cons_self f fs)
    have hbuf0 : ∀ i, (rescaleCheck s f.1.time).prevsample i = 0 := by
      intro i; rw [rescaleCheck_prevsample]; exact hbuf i
    obtain ⟨hS, hF⟩ := frame_zero_buf f.2 (rescaleCheck s f.1.time) f.1 hbuf0 hf.1 hf.2
    have hF1 : ∀ i, (frameStep s f.1 f.2).1.prevsample i = 0 := by
      intro i; rw [frameStep_fst]; exact hF i
    obtain ⟨ihS, ihF⟩ :=
      ih (frameStep s f.1 f.2).1 hF1 (fun g hg => hfs g (List.mem_cons_of_mem f hg))
    constructor
    · intro s2 hs2
      rw [runStates_cons] at hs2
      rcases List.mem_append.mp hs2 with h | h
      · exact hS s2 h
      · exact ihS s2 h
    · exact ihF

/-! ### The top slot is never written (claim C9) -/

theorem frame_writes_bound : ∀ (ins : List ℚ) (s : State) (p : Params),
    s.iterdelay ≤ 399998 → s.prevsample 399999 = 0 →
    (∀ w ∈ frameWrites s p ins, w ≤ 399998) ∧
    (∀ s2 ∈ frameStates s p ins, s2.prevsample 399999 = 0) ∧
    (stepList s p ins).1.iterdelay ≤ 399998 ∧ (stepList s p ins).1.prevsample 399999 = 0 := by
  intro ins
  induction ins with
  | nil =>
    intro s p hd hbuf
    exact ⟨by intro w hw; simp [frameWrites] at hw,
           by intro s2 hs2; simp [frameStates] at hs2, hd, hbuf⟩
  | cons x xs ih =>
    intro s p hd hbuf
    have hbuf1 : (step s p x).1.prevsample 399999 = 0 := by
      rw [step_fst_prevsample, Function.update_apply]
      split
      · omega
      · exact hbuf
    obtain ⟨ihW, ihS, ihD, ihB⟩ := ih (step s p x).1 p (step_post_iterdelay_le s p x) hbuf1
    refine ⟨?_, ?_, ?_, ?_⟩
    · intro w hw
      rw [frameWrites_cons] at hw
      rcases List.mem_cons.mp hw with h | h
      · subst h; exact hd
      · exact ihW w h
    · intro s2 hs2
      rw [frameStates_cons] at hs2
      rcases List.mem_cons.mp hs2 with h | h
      · subst h; exact hbuf1
      · exact ihS s2 h
    · rw [stepList_cons_fst]; exact ihD
    · rw [stepList_cons_fst]; exact ihB

theorem run_writes_bound : ∀ (fs : List (Params × List ℚ)) (s : State),
    s.iterdelay ≤ 399998 → s.prevsample 399999 = 0 →
    (∀ w ∈ runWrites s fs, w ≤ 399998) ∧
    (∀ s2 ∈ runStates s fs, s2.prevsample 399999 = 0) ∧
    (run s fs).prevsample 399999 = 0 ∧ (run s fs).iterdelay ≤ 399998 := by
  intro fs
  induction fs with
  | nil =>
    intro s hd hbuf
    exact ⟨by intro w hw; simp [runWrites] at hw,
           by intro s2 hs2; simp [runStates] at hs2, hbuf, hd⟩
  | cons f fs ih =>
    intro s hd hbuf
    have hd0 : (rescaleCheck s f.1.time).iterdelay ≤ 399998 := by
      rw [rescaleCheck_iterdelay]; exact hd
    have hbuf0 : (rescaleCheck s f.1.time).prevsample 399999 = 0 := by
      rw [rescaleCheck_prevsample]; exact hbuf
    obtain ⟨hW, hS, hD, hB⟩ := frame_writes_bound f.2 (rescaleCheck s f.1.time) f.1 hd0 hbuf0
    have hD1 : (frameStep s f.1 f.2).1.iterdelay ≤ 399998 := by rw [frameStep_fst]; exact hD
    have hB1 : (frameStep s f.1 f.2).1.prevsample 399999 = 0 := by rw [frameStep_fst]; exact hB
    obtain ⟨ihW, ihS, ihB, ihD⟩ := ih (frameStep s f.1 f.2).1 hD1 hB1
    refine ⟨?_, ?_, ihB, ihD⟩
    · intro w hw
      rw [runWrites_cons] at hw
      rcases List.mem_append.mp hw with h | h
      · exact hW w h
      · exact ihW w h
    · intro s2 hs2
      rw [runStates_cons] at hs2
      rcases List.mem_append.mp hs2 with h | h
      · exact hS s2 h
      · exact ihS s2 h

/-! ### Characterisation of the mode-2 read-cursor update (claims C3, C4) -/

theorem mode2_step_char (s : State) (p : Params) (x : ℚ) (hm : p.mode = 2)
    (hd : s.iterdelay ≤ 399998) (hr : s.iterrepeats ≤ 399999) :
    (s.iterdelay + 1 ≤ 199999 →
      (step s p x).1.iterrepeats = wrapIdx (s.iterrepeats + 2)) ∧
    (199999 < s.iterdelay + 1 →
      (step s p x).1.iterrepeats = wrapIdx (
        if (s.iterdelay + 1) % 5 = 0 then s.iterrepeats
        else if (s.iterdelay + 1) % 7 = 0 then s.iterrepeats + 3
        else s.iterrepeats + 1)) := by
  have hd64 : wrap64 (s.iterdelay + 1) = s.iterdelay + 1 := wrap64_small (by omega)
  have hr64 : wrap64 (s.iterrepeats + 1) = s.iterrepeats + 1 := wrap64_small (by omega)
  rw [step_fst_iterrepeats, hm, hd64, hr64, cursorAdvance_two]
  unfold mode2adjust
  constructor
  · intro hle
    rw [if_neg (by omega), wadd_small (by omega)]
  · intro hlt
    rw [if_pos hlt]
    by_cases h5 : (s.iterdelay + 1) % 5 = 0
    · rw [if_pos h5, if_pos h5, wsub_small (by omega) (by omega)]
      congr 1
    · rw [if_neg h5, if_neg h5]
      by_cases h7 : (s.iterdelay + 1) % 7 = 0
      · rw [if_pos h7, if_pos h7, wadd_small (by omega)]
      · rw [if_neg h7, if_neg h7]

/-! ### Mode-1 cursor trajectory (used for reachability and the impulse
response) -/

theorem step_mode1_cursors (s : State) (p : Params) (x : ℚ) (hm : p.mode = 1)
    (hd : s.iterdelay + 1 < 399999) (hr : s.iterrepeats + 1 < 399999) :
    (step s p x).1.iterdelay = s.iterdelay + 1 ∧
    (step s p x).1.iterrepeats = s.iterrepeats + 1 ∧
    (step s p x).1.prev = s.prev := by
  refine ⟨?_, ?_, rfl⟩
  · rw [step_fst_iterdelay, wrap64_small (by omega), wrapIdx_of_lt hd]
  · rw [step_fst_iterrepeats, hm, cursorAdvance_one, wrap64_small (by omega),
      wrapIdx_of_lt hr]

theorem mode1_traj : ∀ (k : ℕ) (s : State) (p : Params) (x1 x2 : ℚ),
    p.mode = 1 → p.time = s.prev →
    s.iterdelay + 2 * k < 399999 → s.iterrepeats + 2 * k < 399999 →
    (run s (List.replicate k (p, [x1, x2]))).iterdelay = s.iterdelay + 2 * k ∧
    (run s (List.replicate k (p, [x1, x2]))).iterrepeats = s.iterrepeats + 2 * k ∧
    (run s (List.replicate k (p, [x1, x2]))).prev = s.prev := by
  intro k
  induction k with
  | zero =>
    intro s p x1 x2 hm ht hd hr
    rw [List.replicate_zero, run_nil]
    exact ⟨by omega, by omega, rfl⟩
  | succ n ih =>
    intro s p x1 x2 hm ht hd hr
    rw [List.replicate_succ, run_cons]
    have hresc : rescaleCheck s p.time = s := rescaleCheck_of_eq ht.symm
    have hframe : (frameStep s p [x1, x2]).1 = (step (step s p x1).1 p x2).1 := by
      rw [frameStep_fst, hresc]; rfl
    have h1 := step_mode1_cursors s p x1 hm (by omega) (by omega)
    have h2 := step_mode1_cursors (step s p x1).1 p x2 hm
      (by rw [h1.1]; omega) (by rw [h1.2.1]; omega)
    have hd2 : (step (step s p x1).1 p x2).1.iterdelay = s.iterdelay + 2 := by
      rw [h2.1, h1.1]
    have hr2 : (step (step s p x1).1 p x2).1.iterrepeats = s.iterrepeats + 2 := by
      rw [h2.2.1, h1.2.1]
    have hp2 : (step (step s p x1).1 p x2).1.prev = s.prev := by
      rw [h2.2.2, h1.2.2]
    obtain ⟨a, b, c⟩ := ih (step (step s p x1).1 p x2).1 p x1 x2 hm
      (by rw [hp2]; exact ht) (by rw [hd2]; omega) (by rw [hr2]; omega)
    rw [hframe]
    refine ⟨?_, ?_, ?_⟩
    · rw [a, hd2]; omega
    · rw [b, hr2]; omega
    · rw [c, hp2]

/-! ### Reachable underflow states (claim C2) -/

theorem stepUnderflows_eq_of_cursors (s s2 : State) (p : Params)
    (h1 : s.iterdelay = s2.iterdelay) (h2 : s.iterrepeats = s2.iterrepeats) :
    stepUnderflows s p = stepUnderflows s2 p := by
  unfold stepUnderflows
  rw [h1, h2]

theorem mode2_never_underflows (s : State) (p : Params) (hm : p.mode = 2)
    (hr : s.iterrepeats ≤ 399999) : stepUnderflows s p = false := by
  unfold stepUnderflows
  rw [hm, if_pos rfl, wrap64_small (show s.iterrepeats + 1 ≤ 400004 by omega)]
  simp only [decide_eq_false_iff_not]
  rintro ⟨-, -, h⟩
  omega

theorem s6_underflows : stepUnderflows s6 p6 = true := by decide

theorem trace7_partial :
    (run initState (List.replicate 100003 (pMode1, ([0, 0] : List ℚ)))).iterdelay = 200006 ∧
    (run initState (List.replicate 100003 (pMode1, ([0, 0] : List ℚ)))).iterrepeats = 200405 ∧
    (run initState (List.replicate 100003 (pMode1, ([0, 0] : List ℚ)))).prev = 1 := by
  have hA1 : (frameStep initState pMode1 ([0, 0] : List ℚ)).1.iterdelay = 2 := by decide
  have hA2 : (frameStep initState pMode1 ([0, 0] : List ℚ)).1.iterrepeats = 401 := by decide
  have hA3 : (frameStep initState pMode1 ([0, 0] : List ℚ)).1.prev = 1 := by decide
  have hrep : List.replicate 100003 (pMode1, ([0, 0] : List ℚ)) =
      (pMode1, ([0, 0] : List ℚ)) :: List.replicate 100002 (pMode1, ([0, 0] : List ℚ)) := by
    rw [show (100003 : ℕ) = 100002 + 1 from rfl, List.replicate_succ]
  obtain ⟨a, b, c⟩ := mode1_traj 100002 (frameStep initState pMode1 ([0, 0] : List ℚ)).1
    pMode1 0 0 rfl (by rw [hA3]; rfl) (by rw [hA1]; norm_num) (by rw [hA2]; norm_num)
  have hB : run initState (List.replicate 100003 (pMode1, ([0, 0] : List ℚ))) =
      run (frameStep initState pMode1 ([0, 0] : List ℚ)).1
        (List.replicate 100002 (pMode1, ([0, 0] : List ℚ))) := by
    rw [hrep, run_cons]
  refine ⟨?_, ?_, ?_⟩
  · rw [hB, a, hA1]
  · rw [hB, b, hA2]
  · rw [hB, c, hA3]

theorem trace7_state :
    (run initState trace7).iterdelay = 200008 ∧
    (run initState trace7).iterrepeats = 402 ∧
    (run initState trace7).prev = 2 := by
  obtain ⟨hB1, hB2, hB3⟩ := trace7_partial
  have hsplit : run initState trace7 =
      (frameStep (run initState (List.replicate 100003 (pMode1, ([0, 0] : List ℚ)))) pB2
        [0, 0]).1 := by
    show run initState
        (List.replicate 100003 (pMode1, ([0, 0] : List ℚ)) ++ [(pB2, [0, 0])]) = _
    rw [run_append, run_cons, run_nil]
  have hne : (run initState (List.replicate 100003 (pMode1, ([0, 0] : List ℚ)))).prev
      ≠ pB2.time := by
    rw [hB3]; decide
  have hRd : (rescaleCheck
      (run initState (List.replicate 100003 (pMode1, ([0, 0] : List ℚ)))) pB2.time).iterdelay
      = 200006 := by
    rw [rescaleCheck_iterdelay]; exact hB1
  have hRr : (rescaleCheck
      (run initState (List.replicate 100003 (pMode1, ([0, 0] : List ℚ)))) pB2.time).iterrepeats
      = 400 := by
    rw [rescaleCheck_iterrepeats_of_ne _ _ hne, hB2]; decide
  have hRp : (rescaleCheck
      (run initState (List.replicate 100003 (pMode1, ([0, 0] : List ℚ)))) pB2.time).prev
      = 2 := by
    rw [rescaleCheck_prev_of_ne _ _ hne]; rfl
  have h1 := step_mode1_cursors
    (rescaleCheck (run initState (List.replicate 100003 (pMode1, ([0, 0] : List ℚ))))
      pB2.time) pB2 0 rfl (by rw [hRd]; norm_num) (by rw [hRr]; norm_num)
  have h2 := step_mode1_cursors
    (step (rescaleCheck (run initState (List.replicate 100003 (pMode1, ([0, 0] : List ℚ))))
      pB2.time) pB2 0).1 pB2 0 rfl
    (by rw [h1.1, hRd]; norm_num) (by rw [h1.2.1, hRr]; norm_num)
  rw [hsplit, frameStep_two_fst]
  refine ⟨?_, ?_, ?_⟩
  · rw [h2.1, h1.1, hRd]
  · rw [h2.2.1, h1.2.1, hRr]
  · rw [h2.2.2, h1.2.2, hRp]

theorem s7_cursors : s7.iterdelay = 200009 ∧ s7.iterrepeats = 2 := by
  obtain ⟨hd, hr, hp⟩ := trace7_state
  have hne : (run initState trace7).prev ≠ p7.time := by rw [hp]; decide
  have hRd : (rescaleCheck (run initState trace7) p7.time).iterdelay = 200008 := by
    rw [rescaleCheck_iterdelay]; exact hd
  have hRr : (rescaleCheck (run initState trace7) p7.time).iterrepeats = 1 := by
    rw [rescaleCheck_iterrepeats_of_ne _ _ hne, hr]; decide
  constructor
  · show (step (rescaleCheck (run initState trace7) p7.time) p7 0).1.iterdelay = 200009
    rw [step_fst_iterdelay, hRd, wrap64_small (by norm_num), wrapIdx_of_lt (by norm_num)]
  · show (step (rescaleCheck (run initState trace7) p7.time) p7 0).1.iterrepeats = 2
    rw [step_fst_iterrepeats, hRd, hRr]
    decide

theorem s7_underflows : stepUnderflows s7 p7 = true := by
  obtain ⟨h1, h2⟩ := s7_cursors
  rw [stepUnderflows_eq_of_cursors s7 ⟨fun _ => 0, 200009, 2, 3⟩ p7 h1 h2]
  decide

/-! ### The impulse-response run (claim C6) -/

theorem frameStep_snd (s : State) (p : Params) (ins : List ℚ) :
    (frameStep s p ins).2 = (stepList (rescaleCheck s p.time) p ins).2 := rfl

theorem c6_frame (n : ℕ) (hp : (c6run n).prev = 1) :
    c6run (n + 1) = (step (c6run n) pMode1 (impulse n)).1 := by
  have hp2 : (c6run n).prev = pMode1.time := hp
  show (frameStep (c6run n) pMode1 [impulse n]).1 = _
  rw [frameStep_fst, rescaleCheck_of_eq hp2]
  rfl

theorem c6_inv : ∀ k : ℕ, 1 ≤ k → k ≤ 399999 →
    (c6run k).iterdelay = (if k ≤ 399998 then k else 0) ∧
    (c6run k).iterrepeats = (if k ≤ 399599 then 399 + k else k - 399600) ∧
    (c6run k).prev = 1 ∧
    ∀ i, (c6run k).prevsample i = (if i = 0 then 1 else 0) := by
  intro k
  induction k with
  | zero => intro h1 _; exact absurd h1 (by norm_num)
  | succ n ih =>
    intro h1 h2
    by_cases hn0 : n = 0
    · subst hn0
      refine ⟨by decide, by decide, by decide, ?_⟩
      intro i
      have hb : (c6run 1).prevsample =
          Function.update (fun _ => (0 : ℚ)) 0 (impulse 0 * pMode1.gain) := rfl
      rw [hb, Function.update_apply]
      by_cases hi : i = 0
      · rw [if_pos hi, if_pos hi]; norm_num [impulse, pMode1]
      · rw [if_neg hi, if_neg hi]
    · have h1n : 1 ≤ n := by omega
      obtain ⟨hd, hr, hp, hb⟩ := ih h1n (by omega)
      have hdn : (c6run n).iterdelay = n := by rw [hd, if_pos (by omega)]
      have hstep : c6run (n + 1) = (step (c6run n) pMode1 (impulse n)).1 := c6_frame n hp
      refine ⟨?_, ?_, ?_, ?_⟩
      · rw [hstep, step_fst_iterdelay, hdn, wrap64_small (by omega)]
        by_cases hc : n + 1 ≤ 399998
        · rw [wrapIdx_of_lt (by omega), if_pos hc]
        · rw [wrapIdx_of_ge (by omega), if_neg hc]
      · rw [hstep, step_fst_iterrepeats, show pMode1.mode = 1 from rfl, cursorAdvance_one,
          hr]
        by_cases hc : n ≤ 399599
        · rw [if_pos hc, wrap64_small (by omega)]
          by_cases hc2 : n + 1 ≤ 399599
          · rw [wrapIdx_of_lt (by omega), if_pos hc2]
            omega
          · have hn3 : n = 399599 := by omega
            subst hn3
            rw [wrapIdx_of_ge (by norm_num), if_neg (by norm_num)]
        · rw [if_neg hc, wrap64_small (by omega), wrapIdx_of_lt (by omega),
            if_neg (by omega)]
          omega
      · rw [hstep, step_fst_prev]; exact hp
      · intro i
        rw [hstep, step_fst_prevsample, Function.update_apply, hdn, hb i]
        by_cases hi : i = n
        · subst hi
          rw [if_pos rfl, if_neg hn0]
          simp [impulse, hn0, pMode1]
        · rw [if_neg hi]

theorem c6out_eq_step (n : ℕ) (hp : (c6run n).prev = 1) :
    c6out n = (step (c6run n) pMode1 (impulse n)).2 := by
  have hp2 : (c6run n).prev = pMode1.time := hp
  show ((frameStep (c6run n) pMode1 [impulse n]).2).headI = _
  rw [frameStep_snd, rescaleCheck_of_eq hp2]
  rfl

theorem c6_output_mid : ∀ n : ℕ, 1 ≤ n → n ≤ 399999 →
    c6out n = (if n = 399600 then 1 else 0) := by
  intro n h1 h2
  obtain ⟨hd, hr, hp, hb⟩ := c6_inv n h1 h2
  rw [c6out_eq_step n hp, step_snd, show pMode1.mode = 1 from rfl, modeOut_one, hb, hr]
  have himp : impulse n * pMode1.gain = 0 := by
    simp [impulse, show n ≠ 0 from by omega, pMode1]
  rw [himp, zero_add]
  by_cases hc : n ≤ 399599
  · rw [if_pos hc, if_neg (by omega), if_neg (by omega)]
  · rw [if_neg hc]
    by_cases h36 : n = 399600
    · subst h36; norm_num
    · rw [if_neg (by omega), if_neg h36]

theorem stepList_one_snd (s : State) (p : Params) (x : ℚ) :
    (stepList s p [x]).2 = [(step s p x).2] := rfl

theorem c6_output_zero : c6out 0 = 1 := by
  have hne : initState.prev ≠ pMode1.time := by decide
  show ((frameStep initState pMode1 [impulse 0]).2).headI = 1
  rw [frameStep_snd, rescaleCheck_of_ne hne, stepList_one_snd]
  show (step { initState with
      iterrepeats := initState.iterrepeats * pMode1.time / 1000,
      prev := pMode1.time } pMode1 (impulse 0)).2 = 1
  rw [step_snd, show pMode1.mode = 1 from rfl, modeOut_one]
  show impulse 0 * pMode1.gain + 0 = 1
  norm_num [impulse, pMode1]


/-! ## The claims -/

/-- C1: for every block of frames whose parameter snapshots are in the nominal
ranges (delay in [1,1000], mode in [1,7], time in [1,1000], gain arbitrary),
both the write cursor `iterdelay` and the read cursor `iterrepeats` lie within
[0, 399999] after every processed sample, and every buffer index used by a
read or a write during any step lies within [0, 399999]. -/
theorem c1_cursor_and_index_bounds : ∀ fs : List (Params × List ℚ),
    (∀ f ∈ fs, paramsInRange f.1) →
    (∀ s2 ∈ runStates initState fs, s2.iterdelay ≤ 399999 ∧ s2.iterrepeats ≤ 399999) ∧
    (∀ i ∈ runIndices initState fs, i ≤ 399999) := by
  intro fs h
  refine run_bounds fs initState (by decide) (by decide) ?_
  intro f hf
  obtain ⟨-, h2, -, -, -, h6⟩ := h f hf
  exact ⟨h2, h6⟩

/-- Witness for C1: the first read index of a one-frame run is 399, within
bounds. -/
theorem c1_cursor_and_index_bounds_witness : (399 : ℕ) ≤ 399999 :=
  (c1_cursor_and_index_bounds [(pMode1, [0])] (by
    intro f hf
    rw [List.mem_singleton] at hf
    subst hf
    exact ⟨by decide, by decide, by decide, by decide, by decide, by decide⟩)).2
    399 (by decide)

/-- C2 counterexample: two reachable engine states (`s6`, reached by the
stereo block `trace6` plus one mode-6 sample; `s7`, reached by the stereo
block `trace7` plus one mode-7 sample) in which the next step executes an
`iterrepeats` decrement that underflows the unsigned cursor: in `s6` the
mode-6 `-= 3` fires with the cursor at 2, in `s7` the mode-7 `-= 1` fires
after the `-= 3` has brought the cursor to exactly 0.  This refutes the claim
that the decrements can never take the read cursor below zero. -/
theorem c2_counterexample :
    stepUnderflows s6 p6 = true ∧ stepUnderflows s7 p7 = true :=
  ⟨s6_underflows, s7_underflows⟩

/-- C2 (amended): the mode-2 `-= 1` decrement never underflows from any state
with the read cursor in bounds, because the `+= 1` baseline advance precedes
it within the same step; but the `-= 3` decrements of modes 6 and 7, and the
mode-7 `-= 1` after a `-= 3` that lands exactly on 0, can underflow from
states reachable from the initial state (the wrapped value is then reset to 0
by the end-of-step wrap check). -/
theorem c2_underflow_amended :
    (∀ (s : State) (p : Params), p.mode = 2 → s.iterrepeats ≤ 399999 →
      stepUnderflows s p = false) ∧
    stepUnderflows s6 p6 = true ∧ stepUnderflows s7 p7 = true :=
  ⟨mode2_never_underflows, s6_underflows, s7_underflows⟩

/-- Witness for C2: the mode-2 step from the initial state performs no
underflowing decrement. -/
theorem c2_underflow_amended_witness : stepUnderflows initState pMode2 = false :=
  c2_underflow_amended.1 initState pMode2 rfl (by decide)

/-- C3 counterexample: in mode 2 with the write cursor below the threshold
(check value 1), the read cursor advances by 2 in one step (the unconditional
baseline `+= 1` of line 160 plus the extra `+= 1` of the mode-2 else branch),
not by the claimed net +1. -/
theorem c3_counterexample :
    sC3.iterdelay + 1 ≤ 199999 ∧
    (step sC3 pMode2 0).1.iterrepeats = sC3.iterrepeats + 2 ∧
    decide ((step sC3 pMode2 0).1.iterrepeats = sC3.iterrepeats + 1) = false := by
  refine ⟨by decide, by decide, by decide⟩

/-- C3 (amended): in mode 2, writing `c = iterdelay + 1` for the
already-incremented write cursor the arm compares against 199999, the total
read-cursor advance of a step is +2 when `c ≤ 199999` (baseline +1 plus an
extra +1), and when `c > 199999` the baseline +1 still applies, adjusted by
-1 when `c % 5 = 0`, else +2 when `c % 7 = 0` (net 0, +3 or +1), all before
the end-of-step boundary wrap. -/
theorem c3_mode2_advance_amended : ∀ (s : State) (p : Params) (x : ℚ),
    p.mode = 2 → s.iterdelay ≤ 399998 → s.iterrepeats ≤ 399999 →
    (s.iterdelay + 1 ≤ 199999 →
      (step s p x).1.iterrepeats = wrapIdx (s.iterrepeats + 2)) ∧
    (199999 < s.iterdelay + 1 →
      (step s p x).1.iterrepeats = wrapIdx (
        if (s.iterdelay + 1) % 5 = 0 then s.iterrepeats
        else if (s.iterdelay + 1) % 7 = 0 then s.iterrepeats + 3
        else s.iterrepeats + 1)) :=
  fun s p x hm hd hr => mode2_step_char s p x hm hd hr

/-- Witness for C3: the amended advance rule evaluated at the concrete state
`sC3`. -/
theorem c3_mode2_advance_amended_witness :
    (step sC3 pMode2 0).1.iterrepeats = wrapIdx (sC3.iterrepeats + 2) :=
  (c3_mode2_advance_amended sC3 pMode2 0 rfl (by decide) (by decide)).1 (by decide)

/-- C4 counterexample: 200007 is not divisible by 7, so at write-cursor check
value 200007 (state `sC4`, stored cursor 200006) the mode-2 arm applies no
perturbation at all and the read cursor advances only by the baseline +1;
the same holds when the stored cursor itself is set to 200007 (state `sC4b`,
check value 200008).  This refutes the claimed "+2 perturbation at
200,007". -/
theorem c4_counterexample :
    decide ((200007 : ℕ) % 7 = 0) = false ∧
    (step sC4 pMode2 0).1.iterrepeats = sC4.iterrepeats + 1 ∧
    (step sC4b pMode2 0).1.iterrepeats = sC4b.iterrepeats + 1 := by
  refine ⟨by decide, by decide, by decide⟩

/-- C4 (amended): at check value 200005 (stored cursor 200004, above 199999
and divisible by 5) the mode-2 adjustment is exactly -1 and the +2 branch is
not also applied, so the net step advance is 0; at check values above 199999
divisible by 7 but not by 5 — e.g. 200004 (stored cursor 200003) — the
adjustment is exactly +2, net +3; and the `% 5` test is evaluated before the
`% 7` test, so -1 wins whenever both divide. -/
theorem c4_mode2_thresholds_amended :
    (∀ (s : State) (p : Params) (x : ℚ), p.mode = 2 → s.iterdelay = 200004 →
      s.iterrepeats + 1 < 399999 → (step s p x).1.iterrepeats = s.iterrepeats) ∧
    (∀ (s : State) (p : Params) (x : ℚ), p.mode = 2 → s.iterdelay = 200003 →
      s.iterrepeats + 3 < 399999 → (step s p x).1.iterrepeats = s.iterrepeats + 3) ∧
    (∀ d r : ℕ, 199999 < d → d % 5 = 0 → mode2adjust d r = wsub r 1) := by
  refine ⟨?_, ?_, ?_⟩
  · intro s p x hm hd hr
    have h := (mode2_step_char s p x hm (by omega) (by omega)).2 (by omega)
    rw [hd] at h
    norm_num at h
    rw [h, wrapIdx_of_lt (by omega)]
  · intro s p x hm hd hr
    have h := (mode2_step_char s p x hm (by omega) (by omega)).2 (by omega)
    rw [hd] at h
    norm_num at h
    rw [h, wrapIdx_of_lt (by omega)]
  · intro d r hlt h5
    unfold mode2adjust
    rw [if_pos hlt, if_pos h5]

/-- Witness for C4: the amended threshold rules evaluated at the concrete
state `sC4c` (check value 200005) and at the pair (200005, 7). -/
theorem c4_mode2_thresholds_amended_witness :
    (step sC4c pMode2 0).1.iterrepeats = sC4c.iterrepeats ∧
    mode2adjust 200005 7 = wsub 7 1 := by
  constructor
  · exact c4_mode2_thresholds_amended.1 sC4c pMode2 0 rfl rfl (by decide)
  · exact c4_mode2_thresholds_amended.2.2 200005 7 (by norm_num) (by norm_num)

/-- C5 counterexample: with the read cursor at 268442 and the time parameter
changing from 1000 to 500 (state `sC5`), the code rescales the cursor to
134220, not to floor(268442 * 500 / 1000) = 134221 as the claim states (and
as the exact-arithmetic idealization `rescaleCheck` computes): the binary32
product 268442 * 500 = 134221000 rounds to 134220992 (a tie broken to even),
and dividing that by 1000 and truncating loses one unit. -/
theorem c5_counterexample :
    (rescaleCheckF32 sC5 500).iterrepeats = 134220 ∧
    sC5.iterrepeats * 500 / 1000 = 134221 ∧
    (rescaleCheck sC5 500).iterrepeats = 134221 := by
  refine ⟨by decide, by decide, by decide⟩

/-- C5 (amended): whenever the polled time value differs from the
last-observed `prev`, the read cursor is immediately (before any sample of
the frame) set to the truncated binary32 computation
`iterrepeats as f32 * time as f32 / 1000.0` and the new time value is
recorded in `prev`; when the values are equal the state is untouched.  The
resulting cursor usually equals floor(iterrepeats * time / 1000) — e.g. at a
1000-to-500 change from the initial cursor 399999 — but binary32 rounding
can shift it one unit in either direction: 268442 * 500 / 1000 gives 134220
(exact floor 134221) and 300001 * 999 / 1000 gives 299701 (exact floor
299700). -/
theorem c5_time_rescale_amended : ∀ (s : State) (t : ℕ),
    (s.prev ≠ t → (rescaleCheckF32 s t).iterrepeats = rescaleF32 s.iterrepeats t ∧
      (rescaleCheckF32 s t).prev = t) ∧
    (s.prev = t → rescaleCheckF32 s t = s) ∧
    (s.prev = 1000 → (rescaleCheckF32 s 500).iterrepeats = rescaleF32 s.iterrepeats 500) ∧
    rescaleF32 399999 500 = 399999 * 500 / 1000 ∧
    rescaleF32 268442 500 = 134220 ∧ 268442 * 500 / 1000 = 134221 ∧
    rescaleF32 300001 999 = 299701 ∧ 300001 * 999 / 1000 = 299700 := by
  intro s t
  exact ⟨fun h => ⟨rescaleCheckF32_iterrepeats_of_ne s t h,
      rescaleCheckF32_prev_of_ne s t h⟩,
    fun h => rescaleCheckF32_of_eq s t h,
    fun h => rescaleCheckF32_iterrepeats_of_ne s 500 (by omega),
    by decide, by decide, by decide, by decide, by decide⟩

/-- Witness for C5: the amended rescale rule evaluated at the concrete state
`sC5` and time 500. -/
theorem c5_time_rescale_amended_witness :
    (rescaleCheckF32 sC5 500).iterrepeats = rescaleF32 sC5.iterrepeats 500 ∧
    (rescaleCheckF32 sC5 500).prev = 500 :=
  (c5_time_rescale_amended sC5 500).1 (by decide)

/-- C6 counterexample: in the impulse-response run from the freshly
constructed engine (mode 1, gain 1, time at its default 1, a unit impulse
followed by silence), the output at offset 399999 is 0, not the impulse; the
impulse is reproduced at offset 399600 instead. -/
theorem c6_counterexample : c6out 399999 = 0 ∧ c6out 399600 = 1 := by
  constructor
  · rw [c6_output_mid 399999 (by norm_num) (by norm_num), if_neg (by norm_num)]
  · rw [c6_output_mid 399600 (by norm_num) (by norm_num), if_pos rfl]

/-- C6 (amended): starting from the freshly constructed engine with mode 1,
gain 1 and the default time value 1, the mandatory first-frame time rescale
shrinks the read cursor from 399999 to 399, so feeding a unit impulse
followed by silence reproduces the impulse at offset
399999 - 399999 * 1 / 1000 = 399600 (and passes the impulse through at
offset 0), not at the stored initial separation 399999; every other output
among the first 400000 samples is 0. -/
theorem c6_impulse_response_amended : ∀ n : ℕ, n ≤ 399999 →
    c6out n = (if n = 0 ∨ n = 399600 then 1 else 0) := by
  intro n hn
  by_cases h0 : n = 0
  · subst h0
    rw [c6_output_zero, if_pos (Or.inl rfl)]
  · rw [c6_output_mid n (by omega) hn]
    by_cases h36 : n = 399600
    · rw [if_pos h36, if_pos (Or.inr h36)]
    · rw [if_neg h36, if_neg (fun h => h.elim h0 h36)]

/-- Witness for C6: the impulse passes through at offset 0. -/
theorem c6_impulse_response_amended_witness : c6out 0 = 1 := by
  have h := c6_impulse_response_amended 0 (by norm_num)
  simpa using h

/-- C7: with mode = 3, for every engine state, every parameter snapshot and
every input sample, the output sample equals the historical tap
`prevsample[iterrepeats]` read at the start of the step, independent of the
input (replace semantics). -/
theorem c7_mode3_replace : ∀ (s : State) (p : Params) (x : ℚ), p.mode = 3 →
    (step s p x).2 = s.prevsample s.iterrepeats := by
  intro s p x h
  rw [step_snd, h, modeOut_three]

/-- Witness for C7: a mode-3 step on the initial state with input 5. -/
theorem c7_mode3_replace_witness :
    (step initState pMode3 5).2 = initState.prevsample initState.iterrepeats :=
  c7_mode3_replace initState pMode3 5 rfl

/-- C8: from any state with an all-zero buffer, processing any block whose
frames all have gain 1 and all-zero input samples — modes, delays and times
arbitrary — leaves every element of the buffer equal to 0 after every
processed sample and at the end of the block. -/
theorem c8_zero_idempotence : ∀ (fs : List (Params × List ℚ)) (s : State),
    (∀ i, s.prevsample i = 0) →
    (∀ f ∈ fs, f.1.gain = 1 ∧ ∀ x ∈ f.2, x = 0) →
    (∀ s2 ∈ runStates s fs, ∀ i, s2.prevsample i = 0) ∧
    (∀ i, (run s fs).prevsample i = 0) :=
  run_zero_buf

/-- Witness for C8: a one-frame all-zero run from the initial state leaves
slot 7 at zero. -/
theorem c8_zero_idempotence_witness :
    (run initState [(pMode1, [0])]).prevsample 7 = 0 :=
  (c8_zero_idempotence [(pMode1, [0])] initState (fun _ => rfl) (by
    intro f hf
    rw [List.mem_singleton] at hf
    subst hf
    refine ⟨rfl, ?_⟩
    intro x hx
    rw [List.mem_singleton] at hx
    exact hx)).2 7

/-- C9: starting from the freshly constructed engine, every buffer write of
every block lands at an index in [0, 399998] — the write uses the current
write-cursor value, which the wrap rule keeps at or below 399998 — so the
buffer element at index 399999 is never written and holds 0 forever. -/
theorem c9_top_slot_immutable : ∀ fs : List (Params × List ℚ),
    (∀ w ∈ runWrites initState fs, w ≤ 399998) ∧
    (∀ s2 ∈ runStates initState fs, s2.prevsample 399999 = 0) ∧
    (run initState fs).prevsample 399999 = 0 := by
  intro fs
  obtain ⟨a, b, c, -⟩ := run_writes_bound fs initState (by decide) rfl
  exact ⟨a, b, c⟩

/-- Witness for C9: the first write of a one-frame run lands at index 0, and
the empty run leaves slot 399999 at zero. -/
theorem c9_top_slot_immutable_witness :
    (0 : ℕ) ≤ 399998 ∧ (run initState []).prevsample 399999 = 0 :=
  ⟨(c9_top_slot_immutable [(pMode1, [0])]).1 0 (by decide),
   (c9_top_slot_immutable []).2.2⟩

/-- C10 counterexample: with the time parameter at 1000, the first-frame
rescale fires but leaves the read cursor at 399999 * 1000 / 1000 = 399999 —
larger than 399 and equal to the stored initial separation — refuting both
the "at most 399" bound and the "never 399999" conclusion. -/
theorem c10_counterexample :
    (rescaleCheck initState 1000).iterrepeats = 399999 ∧
    399 < (rescaleCheck initState 1000).iterrepeats :=
  ⟨by decide, by decide⟩

/-- C10 (amended): on the very first frame the rescale branch always fires —
`prev` is initialised to 399999 while the time value lies in [1, 1000] — and
sets the read cursor to `399999 * time / 1000` before the first sample is
read.  That value is at most 399999 in general and equals 399 exactly when
time = 1 (the default); at time = 1000 the rescale is the identity and the
effective initial separation remains the stored 399999. -/
theorem c10_first_frame_rescale_amended : ∀ t : ℕ, 1 ≤ t → t ≤ 1000 →
    initState.prev ≠ t ∧
    (rescaleCheck initState t).iterrepeats = 399999 * t / 1000 ∧
    (rescaleCheck initState t).prev = t ∧
    399999 * t / 1000 ≤ 399999 ∧
    (t = 1 → 399999 * t / 1000 = 399) ∧
    (rescaleCheck initState 1000).iterrepeats = 399999 := by
  intro t h1 h2
  have hne : initState.prev ≠ t := by
    show (399999 : ℕ) ≠ t
    omega
  refine ⟨hne, ?_, rescaleCheck_prev_of_ne initState t hne, ?_, ?_, by decide⟩
  · rw [rescaleCheck_iterrepeats_of_ne initState t hne]
    rfl
  · calc 399999 * t / 1000 ≤ 399999 * 1000 / 1000 :=
        Nat.div_le_div_right (Nat.mul_le_mul (le_refl 399999) h2)
      _ = 399999 := by norm_num
  · intro ht
    subst ht
    norm_num

/-- Witness for C10: the first-frame rescale at time 2. -/
theorem c10_first_frame_rescale_amended_witness :
    (rescaleCheck initState 2).iterrepeats = 399999 * 2 / 1000 :=
  (c10_first_frame_rescale_amended 2 (by norm_num) (by norm_num)).2.1

end VstDelay
